import Mathlib

/-!
Shallow embedding of `src/examples/capture/main.rs` (wgpu offscreen capture
example): the staging-buffer pool fed by an async channel, the per-tick
capture cycle, the per-capture mapping task, and the background device poll
thread.  Buffers are identified by natural numbers; the pool channel is a
FIFO list; machine integers that the code only ever multiplies within range
are modelled as `Nat`.
-/

namespace Capture

/-- `let size = 256u32;` — image side length in pixels (line 43). -/
def size : Nat := 256

/-- `size_of::<u32>()` — bytes per pixel of Rgba8UnormSrgb, 4. -/
def sizeOfU32 : Nat := 4

/-- `wgpu::Extent3d` fields used by the example. -/
structure Extent3d where
  width : Nat
  height : Nat
  depth : Nat
  deriving DecidableEq, Repr

/-- `texture_extent` (lines 45-49): `{ width: size, height: size, depth: 1 }`. -/
def texture_extent : Extent3d := { width := size, height := size, depth := 1 }

/-- The fields of `wgpu::BufferDescriptor` that the example sets (lines 65-68). -/
structure BufferDescriptor where
  size : Nat
  usageMapRead : Bool
  usageCopyDst : Bool
  deriving DecidableEq, Repr

/-- The descriptor of each staging buffer created in the seeding loop
(lines 65-68): `size: (size * size) as u64 * size_of::<u32>() as u64`,
`usage: MAP_READ | COPY_DST`. -/
def stagingBufferDesc : BufferDescriptor :=
  { size := (size * size) * sizeOfU32
    usageMapRead := true
    usageCopyDst := true }

/-- The fields of `wgpu::BufferCopyView` set at lines 98-103. -/
structure BufferCopyView where
  offset : Nat
  bytes_per_row : Nat
  rows_per_image : Nat
  deriving DecidableEq, Repr

/-- The buffer-side copy view of `copy_texture_to_buffer` (lines 98-103):
`offset: 0, bytes_per_row: size_of::<u32>() as u32 * size, rows_per_image: 0`. -/
def bufferCopyView : BufferCopyView :=
  { offset := 0
    bytes_per_row := sizeOfU32 * size
    rows_per_image := 0 }

/-- Number of bytes the copy writes into the staging buffer, starting at
`bufferCopyView.offset`: one full row stride per texture row. -/
def copyWrittenBytes : Nat := bufferCopyView.bytes_per_row * texture_extent.height

/-- `map_read(0, ...)` offset argument (line 115). -/
def mapReadOffset : Nat := 0

/-- `map_read(_, (size * size) as u64 * size_of::<u32>() as u64)` size
argument (line 115). -/
def mapReadSize : Nat := (size * size) * sizeOfU32

/-- GPU commands the per-tick encoder can record (lines 78-106). -/
inductive Command where
  | renderPass
  | copyTextureToBuffer (dst : BufferCopyView) (extent : Extent3d)
  deriving DecidableEq, Repr

/-- `staging_depth_buffer_recv.try_recv()` (line 75) on the pool channel,
modelled as a FIFO list: pops the front buffer, or yields nothing when the
channel is empty.  It is a total function — it never waits. -/
def try_recv (pool : List Nat) : Option (Nat × List Nat) :=
  match pool with
  | [] => none
  | b :: rest => some (b, rest)

/-- What one iteration of the cadence loop (lines 74-123) does. -/
structure TickOutput where
  commands : List Command
  submitted : Bool
  spawnedMapTask : Option Nat
  pool : List Nat
  deriving DecidableEq, Repr

/-- One iteration of `loop { ... }` (lines 74-123): `try_recv`, record the
render pass, record the copy only if a buffer was received, submit, and
spawn the detached mapping task only if a buffer was received.  The returned
`pool` is the channel content after the `try_recv`. -/
def tick (pool : List Nat) : TickOutput :=
  match try_recv pool with
  | none =>
      { commands := [Command.renderPass]
        submitted := true
        spawnedMapTask := none
        pool := pool }
  | some (b, rest) =>
      { commands := [Command.renderPass,
                     Command.copyTextureToBuffer bufferCopyView texture_extent]
        submitted := true
        spawnedMapTask := some b
        pool := rest }

/-- Result of `map_read(..).await` as the spawned task observes it. -/
inductive MapError where
  | failed
  deriving DecidableEq, Repr

/-- Outcome of the detached per-capture task (lines 112-121). -/
inductive TaskOutcome where
  | panicked
  | sentToPool (b : Nat)
  deriving DecidableEq, Repr

/-- Body of the detached task spawned at lines 112-121: await the single
`map_read`, `.unwrap()` it — a panic on `Err`, after which nothing further
in the task runs — and on `Ok` send the buffer back on the pool channel. -/
def mappingTask (b : Nat) (r : Except MapError Unit) : TaskOutcome :=
  match r with
  | Except.error _ => TaskOutcome.panicked
  | Except.ok _ => TaskOutcome.sentToPool b

/-- `for _ in 0..1 { ... }` (line 63): number of buffers seeded into the pool. -/
def poolSeedCount : Nat := 1

/-- Whole-system ownership state: `pool` is the channel content (Free
buffers), `inFlight` the buffers held by a spawned task whose `map_read`
has not yet resolved, `mapped` the buffers whose mapping resolved and that
are being sent back (lines 118-119), `lost` the buffers held by a task that
panicked on `.unwrap()` and will never send them. -/
structure SysState where
  pool : List Nat
  inFlight : List Nat
  mapped : List Nat
  lost : List Nat
  deriving DecidableEq, Repr

/-- State after the seeding loop (lines 62-72): `poolSeedCount` buffers in
the channel, nothing anywhere else. -/
def initState : SysState :=
  { pool := List.range poolSeedCount, inFlight := [], mapped := [], lost := [] }

/-- The ownership transfers the code can perform, interleaved arbitrarily:
a cadence tick that acquires the front buffer and hands it to a spawned
task (lines 75, 110-122), a tick on an empty channel (no transfer), a
`map_read` resolving `Ok` (line 116) so the task proceeds to send, a
`map_read` resolving `Err` so `.unwrap()` panics (line 117), and a send
completing (line 119) so the buffer re-enters the channel. -/
inductive Step : SysState → SysState → Prop where
  | tickAcquire (b : Nat) (rest infl m l : List Nat) :
      Step ⟨b :: rest, infl, m, l⟩ ⟨rest, infl ++ [b], m, l⟩
  | tickSkip (infl m l : List Nat) :
      Step ⟨[], infl, m, l⟩ ⟨[], infl, m, l⟩
  | mapResolveOk (b : Nat) (p i1 i2 m l : List Nat) :
      Step ⟨p, i1 ++ b :: i2, m, l⟩ ⟨p, i1 ++ i2, m ++ [b], l⟩
  | mapResolveErr (b : Nat) (p i1 i2 m l : List Nat) :
      Step ⟨p, i1 ++ b :: i2, m, l⟩ ⟨p, i1 ++ i2, m, l ++ [b]⟩
  | sendComplete (b : Nat) (p i m1 m2 l : List Nat) :
      Step ⟨p, i, m1 ++ b :: m2, l⟩ ⟨p ++ [b], i, m1 ++ m2, l⟩

/-- States the run can be in after the seeding loop. -/
inductive Reachable : SysState → Prop where
  | init : Reachable initState
  | step {s t : SysState} : Reachable s → Step s t → Reachable t

/-- Total number of buffers across all ownership states. -/
def totalBuffers (s : SysState) : Nat :=
  s.pool.length + s.inFlight.length + s.mapped.length + s.lost.length

/-- How many times buffer `b` occurs across all ownership states. -/
def countBuf (s : SysState) (b : Nat) : Nat :=
  s.pool.count b + s.inFlight.count b + s.mapped.count b + s.lost.count b

theorem step_totalBuffers {s t : SysState} (h : Step s t) :
    totalBuffers t = totalBuffers s := by
  cases h <;> simp [totalBuffers, List.length_append] <;> omega

theorem step_countBuf {s t : SysState} (h : Step s t) (b : Nat) :
    countBuf t b = countBuf s b := by
  cases h <;> simp [countBuf, List.count_append, List.count_cons] <;> omega

theorem reachable_totalBuffers {s : SysState} (h : Reachable s) :
    totalBuffers s = poolSeedCount := by
  induction h with
  | init => rfl
  | step _ hstep ih => rw [step_totalBuffers hstep, ih]

theorem reachable_countBuf {s : SysState} (h : Reachable s) (b : Nat) :
    countBuf s b = countBuf initState b := by
  induction h with
  | init => rfl
  | step _ hstep ih => rw [step_countBuf hstep, ih]

theorem countBuf_init_le_one (b : Nat) : countBuf initState b ≤ 1 := by
  simp [countBuf, initState, poolSeedCount, List.range_succ, List.count_cons]
  split <;> simp

theorem reachable_countBuf_le_one {s : SysState} (h : Reachable s) (b : Nat) :
    countBuf s b ≤ 1 := by
  rw [reachable_countBuf h b]; exact countBuf_init_le_one b

/-- Background poll thread (lines 32-40).  `obs` is the successive
observations of `weak.upgrade()` — `true` while some strong `Arc` to the
device is alive, `false` once the strong count reached zero; `poll` stands
for `device.poll(Maintain::Wait)` followed by the 1 ms sleep. -/
inductive PumpAction where
  | poll
  deriving DecidableEq, Repr

/-- `while let Some(device) = weak.upgrade() { device.poll(..); sleep(..) }`:
the liveness check happens first each iteration; on `true` the thread polls
and loops, on `false` the `while let` ends and the thread returns. -/
def pumpRun : List Bool → List PumpAction
  | [] => []
  | true :: rest => PumpAction.poll :: pumpRun rest
  | false :: _ => []

/-- Control-flow events of the cadence loop body and of the spawned task,
named after the source lines they embed. -/
inductive Action where
  | tryRecvPool
  | recordCommands
  | submitQueue
  | spawnDetachedTask
  | awaitCadenceDelay
  | awaitMapRead
  | sendPoolChannel
  deriving DecidableEq, Repr

/-- The suspension-relevant events of one iteration of the cadence loop
(lines 74-123), in program order: `try_recv` (75), encoder recording
(76-106), `queue.submit` (108), the conditional `Task::spawn(..).detach()`
(110-122), and the `Delay::new(1ms).await` (123). -/
def loopBodyActions (acquired : Bool) : List Action :=
  [Action.tryRecvPool, Action.recordCommands, Action.submitQueue] ++
    (if acquired then [Action.spawnDetachedTask] else []) ++
    [Action.awaitCadenceDelay]

/-- The events of the detached per-capture task body (lines 113-119):
`map_read(..).await.unwrap()` then `sender.send(..).await`. -/
def mapTaskActions : List Action :=
  [Action.awaitMapRead, Action.sendPoolChannel]

theorem initState_eq : initState = SysState.mk [0] [] [] [] := by decide

theorem step_init_acquire : Step initState (SysState.mk [] [0] [] []) := by
  rw [initState_eq]
  exact Step.tickAcquire 0 [] [] [] []

theorem reachable_afterAcquire : Reachable (SysState.mk [] [0] [] []) :=
  Reachable.step Reachable.init step_init_acquire

theorem reachable_exclusive {s : SysState} (h : Reachable s) (b : Nat) :
    ¬(b ∈ s.pool ∧ b ∈ s.inFlight) ∧ ¬(b ∈ s.pool ∧ b ∈ s.mapped) ∧
    ¬(b ∈ s.pool ∧ b ∈ s.lost) ∧ ¬(b ∈ s.inFlight ∧ b ∈ s.mapped) ∧
    ¬(b ∈ s.inFlight ∧ b ∈ s.lost) ∧ ¬(b ∈ s.mapped ∧ b ∈ s.lost) := by
  have hle := reachable_countBuf_le_one h b
  simp only [countBuf] at hle
  refine ⟨?_, ?_, ?_, ?_, ?_, ?_⟩ <;>
    · rintro ⟨h1, h2⟩
      rw [← List.count_pos_iff] at h1 h2
      omega

theorem step_lifecycle {s t : SysState} (h : Step s t) (b : Nat) :
    (b ∈ t.inFlight → b ∈ s.inFlight ∨ b ∈ s.pool) ∧
    (b ∈ t.mapped → b ∈ s.mapped ∨ b ∈ s.inFlight) ∧
    (b ∈ t.pool → b ∈ s.pool ∨ b ∈ s.mapped) ∧
    (b ∈ t.lost → b ∈ s.lost ∨ b ∈ s.inFlight) := by
  cases h <;> simp_all [List.mem_append, List.mem_cons] <;> tauto

/-- C1: every iteration of the cadence loop records the render pass and
submits to the queue, whether or not `try_recv` yielded a buffer; when it
yields nothing, the copy command and the mapping task are skipped for that
tick while the render and the submit still happen. -/
theorem renderAndSubmitEveryTick (pool : List Nat) :
    Command.renderPass ∈ (tick pool).commands ∧
    (tick pool).submitted = true ∧
    (try_recv pool = none →
      (tick pool).spawnedMapTask = none ∧
      ∀ v e, Command.copyTextureToBuffer v e ∉ (tick pool).commands) := by
  cases pool <;> simp [tick, try_recv]

theorem renderAndSubmitEveryTick_witness :
    Command.renderPass ∈ (tick []).commands ∧
    (tick []).submitted = true ∧
    (tick []).spawnedMapTask = none ∧
    Command.renderPass ∈ (tick [0]).commands ∧
    (tick [0]).submitted = true :=
  ⟨(renderAndSubmitEveryTick []).1, (renderAndSubmitEveryTick []).2.1,
   ((renderAndSubmitEveryTick []).2.2 rfl).1,
   (renderAndSubmitEveryTick [0]).1, (renderAndSubmitEveryTick [0]).2.1⟩

/-- C2: `try_recv` on the pool channel is non-blocking (a total function —
it never waits): it yields nothing exactly when the channel is empty, and
when it yields a buffer that buffer is the channel front and is removed
from the channel, transferring exclusive ownership to the caller. -/
theorem tryAcquireNonBlocking (pool : List Nat) :
    (try_recv pool = none ↔ pool = []) ∧
    (∀ b rest, try_recv pool = some (b, rest) → pool = b :: rest) := by
  cases pool <;> simp [try_recv]

theorem tryAcquireNonBlocking_witness :
    try_recv [] = none ∧ ([0] : List Nat) = 0 :: [] :=
  ⟨(tryAcquireNonBlocking []).1.mpr rfl,
   (tryAcquireNonBlocking [0]).2 0 [] rfl⟩

/-- C3: the pool is seeded with exactly one buffer, a step never creates or
destroys a buffer identity (per-buffer occurrence counts are invariant, so
a buffer sent back after a successful mapping is one of the seeded ones),
and the total across Free (pool), In-Flight, Mapped and lost always equals
the initial pool size, one. -/
theorem bufferConservation (s : SysState) (h : Reachable s) :
    poolSeedCount = 1 ∧
    totalBuffers initState = poolSeedCount ∧
    totalBuffers s = poolSeedCount ∧
    (∀ b, countBuf s b = countBuf initState b) :=
  ⟨rfl, rfl, reachable_totalBuffers h, reachable_countBuf h⟩

theorem bufferConservation_witness :
    Reachable (SysState.mk [] [0] [] []) ∧
    totalBuffers (SysState.mk [] [0] [] []) = poolSeedCount ∧
    countBuf (SysState.mk [] [0] [] []) 0 = countBuf initState 0 :=
  ⟨reachable_afterAcquire,
   (bufferConservation _ reachable_afterAcquire).2.2.1,
   (bufferConservation _ reachable_afterAcquire).2.2.2 0⟩

/-- C4: in every reachable state each buffer occurs at most once across all
ownership stages (so the channel can never hand the same buffer to two
acquirers, and no buffer is in two of pool / In-Flight / Mapped / lost
simultaneously), and every step moves a buffer only along the sequential
lifecycle pool → In-Flight → Mapped → pool (or In-Flight → lost). -/
theorem bufferExclusivityLifecycle (s t : SysState) (hs : Reachable s)
    (hst : Step s t) :
    (∀ b, countBuf s b ≤ 1) ∧
    (∀ b, ¬(b ∈ s.pool ∧ b ∈ s.inFlight) ∧ ¬(b ∈ s.pool ∧ b ∈ s.mapped) ∧
          ¬(b ∈ s.pool ∧ b ∈ s.lost) ∧ ¬(b ∈ s.inFlight ∧ b ∈ s.mapped) ∧
          ¬(b ∈ s.inFlight ∧ b ∈ s.lost) ∧ ¬(b ∈ s.mapped ∧ b ∈ s.lost)) ∧
    (∀ b, (b ∈ t.inFlight → b ∈ s.inFlight ∨ b ∈ s.pool) ∧
          (b ∈ t.mapped → b ∈ s.mapped ∨ b ∈ s.inFlight) ∧
          (b ∈ t.pool → b ∈ s.pool ∨ b ∈ s.mapped) ∧
          (b ∈ t.lost → b ∈ s.lost ∨ b ∈ s.inFlight)) :=
  ⟨reachable_countBuf_le_one hs, reachable_exclusive hs, step_lifecycle hst⟩

theorem bufferExclusivityLifecycle_witness :
    Reachable initState ∧ Step initState (SysState.mk [] [0] [] []) ∧
    countBuf initState 0 ≤ 1 ∧
    ¬(0 ∈ initState.pool ∧ 0 ∈ initState.inFlight) ∧
    (0 ∈ initState.inFlight ∨ 0 ∈ initState.pool) :=
  ⟨Reachable.init, step_init_acquire,
   (bufferExclusivityLifecycle initState _ Reachable.init step_init_acquire).1 0,
   ((bufferExclusivityLifecycle initState _ Reachable.init step_init_acquire).2.1 0).1,
   ((bufferExclusivityLifecycle initState _ Reachable.init step_init_acquire).2.2 0).1
     (by decide)⟩

/-- C5: when the awaited `map_read` resolves with an error, the task body's
`.unwrap()` panics: the task outcome is a hard failure, the buffer is sent
to no pool, and the body contains exactly one `map_read` await — no retry
and no release on the error path. -/
theorem mappingFailureFatal (b : Nat) (e : MapError) :
    mappingTask b (Except.error e) = TaskOutcome.panicked ∧
    (∀ c, mappingTask b (Except.error e) ≠ TaskOutcome.sentToPool c) ∧
    mapTaskActions.count Action.awaitMapRead = 1 := by
  simp [mappingTask, mapTaskActions]

/-- C6: each staging buffer is allocated with byte size exactly width ×
height × bytes-per-pixel = 256 × 256 × 4, and the region handed to
`map_read` (offset 0, same byte count) coincides with the region the copy
wrote (offset 0, one full row stride per row). -/
theorem stagingSizeAndMapRegion :
    stagingBufferDesc.size = 256 * 256 * 4 ∧
    stagingBufferDesc.size = texture_extent.width * texture_extent.height * sizeOfU32 ∧
    mapReadOffset = 0 ∧
    mapReadSize = stagingBufferDesc.size ∧
    mapReadOffset = bufferCopyView.offset ∧
    mapReadSize = copyWrittenBytes := by
  decide

/-- C7: the copy command appears in a tick's command list exactly when
`try_recv` yielded a buffer, and every copy recorded uses
`bytes_per_row = 4 × 256` (the exact row stride width × bytes-per-pixel, so
no inter-row padding) and `rows_per_image = 0`. -/
theorem copyStrideAndConditionality (pool : List Nat) :
    bufferCopyView.bytes_per_row = sizeOfU32 * size ∧
    bufferCopyView.bytes_per_row = 4 * 256 ∧
    bufferCopyView.bytes_per_row = texture_extent.width * sizeOfU32 ∧
    bufferCopyView.rows_per_image = 0 ∧
    (Command.copyTextureToBuffer bufferCopyView texture_extent
        ∈ (tick pool).commands ↔ try_recv pool ≠ none) ∧
    (∀ v e, Command.copyTextureToBuffer v e ∈ (tick pool).commands →
      v = bufferCopyView ∧ e = texture_extent) := by
  refine ⟨by decide, by decide, by decide, by decide, ?_, ?_⟩ <;>
    cases pool <;> simp [tick, try_recv]

theorem copyStrideAndConditionality_witness :
    Command.copyTextureToBuffer bufferCopyView texture_extent
      ∈ (tick [0]).commands ∧
    ¬Command.copyTextureToBuffer bufferCopyView texture_extent
      ∈ (tick []).commands :=
  ⟨(copyStrideAndConditionality [0]).2.2.2.2.1.mpr (by decide),
   fun hmem =>
     ((copyStrideAndConditionality []).2.2.2.2.1.mp hmem) rfl⟩

/-- C8: the poll thread checks `weak.upgrade()` before every poll, so it
polls exactly once per leading alive observation, performs no action other
than polling (it reports no errors), and exits its loop at the first
observation that the device's strong count reached zero — observations
after that point are unreachable. -/
theorem pumpTerminatesOnTeardown (obs : List Bool) :
    (∀ a ∈ pumpRun obs, a = PumpAction.poll) ∧
    (pumpRun obs).length = (obs.takeWhile (fun b => b)).length ∧
    (∀ rest, pumpRun (obs ++ false :: rest) = pumpRun (obs ++ [false])) := by
  induction obs with
  | nil => simp [pumpRun]
  | cons b rest ih =>
      cases b with
      | true =>
          refine ⟨?_, ?_, ?_⟩
          · intro a _
            cases a
            rfl
          · simp [pumpRun, List.takeWhile, ih.2.1]
          · intro r
            simp only [List.cons_append, pumpRun]
            exact congrArg (List.cons PumpAction.poll) (ih.2.2 r)
      | false => simp [pumpRun]

theorem pumpTerminatesOnTeardown_witness :
    (pumpRun [true, false]).length
      = (([true, false] : List Bool).takeWhile (fun b => b)).length ∧
    pumpRun ([true] ++ false :: [true]) = pumpRun ([true] ++ [false]) ∧
    PumpAction.poll = PumpAction.poll :=
  ⟨(pumpTerminatesOnTeardown [true, false]).2.1,
   (pumpTerminatesOnTeardown [true]).2.2 [true],
   (pumpTerminatesOnTeardown [true]).1 PumpAction.poll (by decide)⟩

/-- C9: the awaited mapping result occurs only in the body of the detached
per-capture task, never among the cadence loop body's events — whether or
not a buffer was acquired — and the task is spawned exactly on the ticks
where one was acquired. -/
theorem mapAwaitOnlyInSpawnedTask (acquired : Bool) :
    Action.awaitMapRead ∉ loopBodyActions acquired ∧
    Action.awaitMapRead ∈ mapTaskActions ∧
    (Action.spawnDetachedTask ∈ loopBodyActions acquired ↔ acquired = true) := by
  cases acquired <;> decide

/-- C10: a tick on an empty pool channel leaves the channel exactly as it
was, spawns no mapping task, and submits a command sequence consisting of
the render pass alone. -/
theorem skippedTickLeavesPoolUnchanged (pool : List Nat)
    (h : try_recv pool = none) :
    (tick pool).pool = pool ∧
    (tick pool).spawnedMapTask = none ∧
    (tick pool).commands = [Command.renderPass] ∧
    (tick pool).submitted = true := by
  cases pool with
  | nil => simp [tick, try_recv]
  | cons b rest => simp [try_recv] at h

theorem skippedTickLeavesPoolUnchanged_witness :
    try_recv [] = none ∧ (tick []).pool = [] ∧
    (tick []).spawnedMapTask = none ∧
    (tick []).commands = [Command.renderPass] :=
  ⟨rfl, (skippedTickLeavesPoolUnchanged [] rfl).1,
   (skippedTickLeavesPoolUnchanged [] rfl).2.1,
   (skippedTickLeavesPoolUnchanged [] rfl).2.2.1⟩

end Capture
